import Mathlib

/-!
Shallow embedding of the `las-crs` crate (src/lib.rs): extraction of EPSG
codes from LAS variable-length records (VLRs), either from a WKT string
VLR or from GeoTIFF key-directory VLRs.

Modelling conventions:
* Byte buffers (`Vec<u8>`) are `List Nat` of byte values.
* `u16` arithmetic that can wrap is made explicit with `% 65536`.
* `f64` values are never computed with by the source; they are
  represented by their little-endian 64-bit bit patterns as `Nat`.
* `std::io::Cursor` is a pair of the underlying buffer and a position;
  a read past the end of the buffer is the I/O-class error.
* The `Io` variant of `CrsError` wraps a `std::io::Error`; the payload
  is dropped, leaving the bare constructor `ioError`.
* The external `las::Header` collaborator is replaced by its two
  consumed projections: the VLR list and the `has_wkt_crs` flag.
-/

/-- `GeoTiffData` (src/lib.rs lines 195-200): `String` is kept as the
list of pushed character code points, `Doubles` as the list of
little-endian 64-bit float bit patterns. -/
inductive GeoTiffData where
  | u16 : Nat → GeoTiffData
  | string : List Nat → GeoTiffData
  | doubles : List Nat → GeoTiffData
deriving DecidableEq, Repr

/-- The error taxonomy `CrsError` (src/lib.rs lines 12-28). -/
inductive CrsError where
  | noCrs
  | userDefinedCrs
  | unreadableWktCrs
  | unreadableGeotiffCrs
  | undefinedDataForGeoTiffKey : Nat → CrsError
  | unimplementedForGeoTiffAsciiAndStringData : GeoTiffData → CrsError
  | ioError
deriving DecidableEq, Repr

/-- `pub type EPSG = (u16, Option<u16>)` (src/lib.rs line 10). -/
abbrev Epsg := Nat × Option Nat

/-- The digit test of `get_wkt_epsg`: `(48..=57).contains(&byte)`. -/
def isAsciiDigit (b : Nat) : Bool := 48 ≤ b && b ≤ 57

/-- The loop body of `get_wkt_epsg` (src/lib.rs lines 82-97), over the
already reversed byte list, carrying the accumulator `epsg_code`, the
`power` counter, the `has_code_started` flag and the reversed index `i`.
The `u16` accumulation `epsg_code += 10_u16.pow(power) * (byte - 48)`
wraps at `65536`.  The source performs the accumulation before the
`i > 7` bound check of the same iteration; since the error does not
depend on the accumulator the check is taken first here.  A non-digit
byte after the run has started leaves the loop via `break`, skipping
the bound check of that iteration. -/
def getWktEpsgAux : List Nat → Nat → Nat → Bool → Nat → Except CrsError Epsg
  | [], epsg, _, _, _ => .ok (epsg, none)
  | b :: rest, epsg, power, started, i =>
    if isAsciiDigit b then
      if 7 < i then .error .unreadableWktCrs
      else
        getWktEpsgAux rest ((epsg + (10 ^ power % 65536) * (b - 48)) % 65536)
          (power + 1) true (i + 1)
    else if started then .ok (epsg, none)
    else if 7 < i then .error .unreadableWktCrs
    else getWktEpsgAux rest epsg power started (i + 1)

/-- `get_wkt_epsg` (src/lib.rs lines 78-99): scan the bytes in reverse
for the trailing EPSG code. -/
def get_wkt_epsg (bytes : List Nat) : Except CrsError Epsg :=
  getWktEpsgAux bytes.reverse 0 0 false 0

/-- Overflow observer for the accumulation of `get_wkt_epsg`: it walks
the reversed bytes exactly as `getWktEpsgAux` does and returns `true`
iff some `u16` operation of the accumulation — `10_u16.pow(power)`,
the product with the digit, or the addition into `epsg_code` — exceeds
`65535` before the scan ends. -/
def wktOverflowAux : List Nat → Nat → Nat → Bool → Nat → Bool
  | [], _, _, _, _ => false
  | b :: rest, epsg, power, started, i =>
    if isAsciiDigit b then
      if 65535 < 10 ^ power ∨ 65535 < (10 ^ power % 65536) * (b - 48) ∨
          65535 < epsg + (10 ^ power % 65536) * (b - 48) then true
      else if 7 < i then false
      else
        wktOverflowAux rest ((epsg + (10 ^ power % 65536) * (b - 48)) % 65536)
          (power + 1) true (i + 1)
    else if started then false
    else if 7 < i then false
    else wktOverflowAux rest epsg power started (i + 1)

/-- `true` iff the `u16` accumulation inside `get_wkt_epsg bytes`
overflows at some step of the scan. -/
def wktAccumOverflows (bytes : List Nat) : Bool :=
  wktOverflowAux bytes.reverse 0 0 false 0

/-- Scan-termination predicate of the WKT loop, used to state the error
characterisation: walking the given (reversed) bytes with the
`has_code_started` flag, `true` iff the loop never leaves via the
"non-digit after digits" `break` rule within the list. -/
def noBreakWithin : List Nat → Bool → Bool
  | [], _ => true
  | b :: rest, started =>
    if isAsciiDigit b then noBreakWithin rest true
    else if started then false
    else noBreakWithin rest started

/-- Decimal value of a digit run read in forward order (each byte an
ASCII digit). -/
def digitRunValue (run : List Nat) : Nat :=
  run.foldl (fun a d => 10 * a + (d - 48)) 0

/-- Value of a digit sequence read least-significant-digit first, as the
reversed WKT scan accumulates it. -/
def revVal : List Nat → Nat
  | [] => 0
  | d :: ds => (d - 48) + 10 * revVal ds

/-- `std::io::Cursor<Vec<u8>>`: the buffer plus the read position.
`seek(SeekFrom::Start(p))` is modelled by constructing a cursor with
position `p`. -/
structure ByteCursor where
  data : List Nat
  pos : Nat
deriving DecidableEq, Repr

/-- `read_u16::<LittleEndian>`: two bytes, little endian; a short read
surfaces as the I/O-class error. -/
def readU16 (c : ByteCursor) : Except CrsError (Nat × ByteCursor) :=
  if c.pos + 2 ≤ c.data.length then
    .ok (c.data.getD c.pos 0 + 256 * c.data.getD (c.pos + 1) 0, ⟨c.data, c.pos + 2⟩)
  else .error .ioError

/-- `read_u8`: one byte; a short read surfaces as the I/O-class error. -/
def readU8 (c : ByteCursor) : Except CrsError (Nat × ByteCursor) :=
  if c.pos + 1 ≤ c.data.length then
    .ok (c.data.getD c.pos 0, ⟨c.data, c.pos + 1⟩)
  else .error .ioError

/-- Little-endian value of a byte list. -/
def leValue : List Nat → Nat
  | [] => 0
  | b :: bs => b + 256 * leValue bs

/-- `read_f64::<LittleEndian>`: eight bytes; the float is kept as its
64-bit little-endian bit pattern. -/
def readF64 (c : ByteCursor) : Except CrsError (Nat × ByteCursor) :=
  if c.pos + 8 ≤ c.data.length then
    .ok (leValue ((c.data.drop c.pos).take 8), ⟨c.data, c.pos + 8⟩)
  else .error .ioError

/-- `GeoTiffKeyEntry` (src/lib.rs lines 189-193). -/
structure GeoTiffKeyEntry where
  id : Nat
  data : GeoTiffData
deriving DecidableEq, Repr

/-- The `for _ in 0..count` loop of the `34736` arm of
`GeoTiffKeyEntry::read_from`: read `count` consecutive little-endian
64-bit floats. -/
def readDoublesLoop : Nat → ByteCursor → Except CrsError (List Nat × ByteCursor)
  | 0, c => .ok ([], c)
  | n + 1, c =>
    match readF64 c with
    | .error e => .error e
    | .ok (d, c2) =>
      match readDoublesLoop n c2 with
      | .error e => .error e
      | .ok (ds, c3) => .ok (d :: ds, c3)

/-- The `for _ in 0..count` loop of the `34737` arm of
`GeoTiffKeyEntry::read_from`: read `count` bytes, each pushed as a
character code point. -/
def readAsciiLoop : Nat → ByteCursor → Except CrsError (List Nat × ByteCursor)
  | 0, c => .ok ([], c)
  | n + 1, c =>
    match readU8 c with
    | .error e => .error e
    | .ok (b, c2) =>
      match readAsciiLoop n c2 with
      | .error e => .error e
      | .ok (bs, c3) => .ok (b :: bs, c3)

/-- `GeoTiffKeyEntry::read_from` (src/lib.rs lines 202-237): read the
four little-endian `u16` fields `id`, `location`, `count`, `offset`
from the main cursor, then resolve the value by `location`:
inline (`0`), doubles indirection (`34736`, seeking to `offset * 8`),
ASCII indirection (`34737`, seeking to `offset`), otherwise
`UndefinedDataForGeoTiffKey(id)`. -/
def GeoTiffKeyEntry.read_from (main : ByteCursor) (dbl ascii : Option (List Nat)) :
    Except CrsError (GeoTiffKeyEntry × ByteCursor) :=
  match readU16 main with
  | .error e => .error e
  | .ok (id, c1) =>
    match readU16 c1 with
    | .error e => .error e
    | .ok (location, c2) =>
      match readU16 c2 with
      | .error e => .error e
      | .ok (count, c3) =>
        match readU16 c3 with
        | .error e => .error e
        | .ok (offset, c4) =>
          if location = 0 then .ok (⟨id, .u16 offset⟩, c4)
          else if location = 34736 then
            match dbl with
            | none => .error .unreadableGeotiffCrs
            | some buf =>
              match readDoublesLoop count ⟨buf, offset * 8⟩ with
              | .error e => .error e
              | .ok (ds, _) => .ok (⟨id, .doubles ds⟩, c4)
          else if location = 34737 then
            match ascii with
            | none => .error .unreadableGeotiffCrs
            | some buf =>
              match readAsciiLoop count ⟨buf, offset⟩ with
              | .error e => .error e
              | .ok (bs, _) => .ok (⟨id, .string bs⟩, c4)
          else .error (.undefinedDataForGeoTiffKey id)

/-- `GeoTiffCRS::read_from` (src/lib.rs lines 170-187): read `count`
consecutive key entries from the main cursor. -/
def readEntries (dbl ascii : Option (List Nat)) :
    Nat → ByteCursor → Except CrsError (List GeoTiffKeyEntry × ByteCursor)
  | 0, c => .ok ([], c)
  | n + 1, c =>
    match GeoTiffKeyEntry.read_from c dbl ascii with
    | .error e => .error e
    | .ok (e, c2) =>
      match readEntries dbl ascii n c2 with
      | .error e => .error e
      | .ok (es, c3) => .ok (e :: es, c3)

/-- The entry-interpretation loop of `get_geotiff_epsg`
(src/lib.rs lines 116-158), carrying `out : (Option, Option)` =
(horizontal, vertical).  The `1024` arm mirrors the source `match` on
`entry.data` (`U16(0)`, `U16(1)`, `U16(2)`, `U16(3)`, `U16(32_767)`,
then the catch-all `p`, which also catches other numeric values). -/
def scanEntries : List GeoTiffKeyEntry → Option Nat × Option Nat →
    Except CrsError (Option Nat × Option Nat)
  | [], out => .ok out
  | e :: rest, out =>
    if e.id = 1024 then
      match e.data with
      | .u16 v =>
        if v = 0 then .error .unreadableGeotiffCrs
        else if v = 1 then scanEntries rest out
        else if v = 2 then scanEntries rest out
        else if v = 3 then scanEntries rest out
        else if v = 32767 then .error .userDefinedCrs
        else .error (.unimplementedForGeoTiffAsciiAndStringData (.u16 v))
      | p => .error (.unimplementedForGeoTiffAsciiAndStringData p)
    else if e.id = 3072 then
      match e.data with
      | .u16 v => scanEntries rest (some v, out.2)
      | _ => .error (.undefinedDataForGeoTiffKey 3072)
    else if e.id = 2048 then
      match e.data with
      | .u16 v => scanEntries rest (some v, out.2)
      | _ => .error (.undefinedDataForGeoTiffKey 2048)
    else if e.id = 4096 then
      match e.data with
      | .u16 v => scanEntries rest (out.1, some v)
      | _ => .error (.undefinedDataForGeoTiffKey 4096)
    else scanEntries rest out

/-- The tail of `get_geotiff_epsg` (src/lib.rs lines 116-162): run the
entry scan from `(None, None)` and require a horizontal code. -/
def interpretEntries (es : List GeoTiffKeyEntry) : Except CrsError Epsg :=
  match scanEntries es (none, none) with
  | .error e => .error e
  | .ok (none, _) => .error .unreadableGeotiffCrs
  | .ok (some h, v) => .ok (h, v)

/-- `get_geotiff_epsg` (src/lib.rs lines 101-163).  The Rust function
receives the four-slot array and unwraps slot 1, which its only caller
`parse_las_crs` guarantees to be present; the unwrapped directory
payload is taken directly here, together with the optional doubles and
ASCII payloads (slots 2 and 3). -/
def get_geotiff_epsg (main : List Nat) (dbl ascii : Option (List Nat)) :
    Except CrsError Epsg :=
  match readU16 ⟨main, 0⟩ with
  | .error e => .error e
  | .ok (_, c1) =>
    match readU16 c1 with
    | .error e => .error e
    | .ok (_, c2) =>
      match readU16 c2 with
      | .error e => .error e
      | .ok (_, c3) =>
        match readU16 c3 with
        | .error e => .error e
        | .ok (numKeys, c4) =>
          match readEntries dbl ascii numKeys c4 with
          | .error e => .error e
          | .ok (es, _) => interpretEntries es

/-- A VLR record as consumed by `parse_las_crs`: user id, record id and
payload.  The user id is kept as its character list; Rust's
`to_lowercase()` is modelled per character with `Char.toLower`. -/
structure Vlr where
  user_id : List Char
  record_id : Nat
  data : List Nat

/-- The four positional CRS slots (`crs_vlrs` in `parse_las_crs`):
0 = WKT (2112), 1 = GeoTIFF directory (34735), 2 = GeoTIFF doubles
(34736), 3 = GeoTIFF ASCII (34737). -/
structure Slots where
  s0 : Option (List Nat)
  s1 : Option (List Nat)
  s2 : Option (List Nat)
  s3 : Option (List Nat)

/-- The VLR selection loop of `parse_las_crs` (src/lib.rs lines 32-48):
a record is relevant iff its lowercased user id is
`lasf_projection` and its record id is one of the four CRS ids; later
matches overwrite earlier ones. -/
def selectVlrs (vlrs : List Vlr) : Slots :=
  vlrs.foldl
    (fun s vlr =>
      if vlr.user_id.map Char.toLower = "lasf_projection".toList then
        if vlr.record_id = 2112 then { s with s0 := some vlr.data }
        else if vlr.record_id = 34735 then { s with s1 := some vlr.data }
        else if vlr.record_id = 34736 then { s with s2 := some vlr.data }
        else if vlr.record_id = 34737 then { s with s3 := some vlr.data }
        else s
      else s)
    ⟨none, none, none, none⟩

/-- `parse_las_crs` (src/lib.rs lines 30-75) together with its logging
side channel: the second component collects the `log!(Level::Warn, ...)`
messages, which depend on the header flag `has_wkt_crs` but never on
the returned value. -/
def parse_las_crs_logged (hasWktCrs : Bool) (vlrs : List Vlr) :
    Except CrsError Epsg × List String :=
  let s := selectVlrs vlrs
  match s.s0 with
  | some w =>
    (get_wkt_epsg w,
      if hasWktCrs then []
      else ["WKT CRS VLR found, but header says it does not exists"])
  | none =>
    match s.s1 with
    | some g =>
      (get_geotiff_epsg g s.s2 s.s3,
        if hasWktCrs then ["No WKT CRS VLR found but header says it exists"]
        else [])
    | none =>
      (.error .noCrs,
        if hasWktCrs then ["No WKT CRS VLR found but header says it exists"]
        else [])

/-- The returned value of `parse_las_crs` (src/lib.rs lines 30-75). -/
def parse_las_crs (hasWktCrs : Bool) (vlrs : List Vlr) : Except CrsError Epsg :=
  (parse_las_crs_logged hasWktCrs vlrs).1

/-- The `num_keys` field as `get_geotiff_epsg` reads it: the fourth
little-endian `u16` of the directory payload (bytes 6 and 7). -/
def declaredEntryCount (main : List Nat) : Nat :=
  main.getD 6 0 + 256 * main.getD 7 0

/-- Little-endian encoding of a `u16` as two bytes. -/
def u16le (n : Nat) : List Nat := [n % 256, n / 256 % 256]

/-- `true` iff a `GeoTiffData` value is the `U16` (numeric)
representation. -/
def GeoTiffData.isNumeric : GeoTiffData → Bool
  | .u16 _ => true
  | _ => false

/-- Horizontal-code fold underlying the entry scan, from an arbitrary
starting value: every numeric entry with id `2048` or `3072` overwrites
the stored horizontal code. -/
def lastHorizontalFrom (es : List GeoTiffKeyEntry) (init : Option Nat) : Option Nat :=
  es.foldl
    (fun acc e =>
      if e.id = 2048 ∨ e.id = 3072 then
        match e.data with
        | .u16 v => some v
        | _ => acc
      else acc)
    init

/-- Vertical-code fold underlying the entry scan, from an arbitrary
starting value: every numeric entry with id `4096` overwrites the
stored vertical code. -/
def lastVerticalFrom (es : List GeoTiffKeyEntry) (init : Option Nat) : Option Nat :=
  es.foldl
    (fun acc e =>
      if e.id = 4096 then
        match e.data with
        | .u16 v => some v
        | _ => acc
      else acc)
    init

/-- The numeric value of whichever entry with id `2048` or `3072`
appears last in directory order, if any. -/
def lastHorizontalCode (es : List GeoTiffKeyEntry) : Option Nat :=
  lastHorizontalFrom es none

/-- The numeric value of the last entry with id `4096`, if any. -/
def lastVerticalCode (es : List GeoTiffKeyEntry) : Option Nat :=
  lastVerticalFrom es none

deriving instance DecidableEq for Except

/-! ### Lemmas about the WKT scan -/

/-- The WKT loop always ends in an `ok` pair with no vertical code, or
in the error `UnreadableWktCrs`. -/
lemma wktAux_cases (l : List Nat) : ∀ epsg power started i,
    (∃ v, getWktEpsgAux l epsg power started i = .ok (v, none)) ∨
      getWktEpsgAux l epsg power started i = .error .unreadableWktCrs := by
  induction l with
  | nil =>
    intro epsg power started i
    exact Or.inl ⟨epsg, rfl⟩
  | cons b rest ih =>
    intro epsg power started i
    by_cases hd : isAsciiDigit b
    · by_cases h7 : 7 < i
      · simp [getWktEpsgAux, hd, h7]
      · simpa [getWktEpsgAux, hd, h7] using ih _ _ _ _
    · by_cases hs : started
      · exact Or.inl ⟨epsg, by simp [getWktEpsgAux, hd, hs]⟩
      · by_cases h7 : 7 < i
        · simp [getWktEpsgAux, hd, hs, h7]
        · simpa [getWktEpsgAux, hd, hs, h7] using ih _ _ _ _

/-- Exact characterisation of the `UnreadableWktCrs` failure of the WKT
loop: it fires iff at least `9` bytes remain and the "non-digit after
digits" `break` rule does not fire within the next `9` bytes. -/
lemma wktAux_error_iff (l : List Nat) : ∀ epsg power started i, i ≤ 8 →
    (getWktEpsgAux l epsg power started i = .error .unreadableWktCrs ↔
      9 ≤ i + l.length ∧ noBreakWithin (l.take (9 - i)) started = true) := by
  induction l with
  | nil =>
    intro epsg power started i hi
    simp [getWktEpsgAux, noBreakWithin]
    omega
  | cons b rest ih =>
    intro epsg power started i hi
    have htake : 9 - i = (8 - i) + 1 := by omega
    rw [htake, List.take_succ_cons]
    by_cases hd : isAsciiDigit b
    · have hnb : noBreakWithin (b :: List.take (8 - i) rest) started =
          noBreakWithin (List.take (8 - i) rest) true := by
        simp [noBreakWithin, hd]
      rw [hnb]
      by_cases h7 : 7 < i
      · have h8 : 8 - i = 0 := by omega
        rw [h8]
        simp only [getWktEpsgAux, hd, if_true, h7, List.take_zero, noBreakWithin,
          List.length_cons]
        constructor
        · intro _; exact ⟨by omega, trivial⟩
        · intro _; trivial
      · simp only [getWktEpsgAux, hd, if_true, h7, if_false]
        rw [show (8 : Nat) - i = 9 - (i + 1) by omega, ih _ _ _ _ (by omega)]
        simp only [List.length_cons]
        constructor
        · rintro ⟨h1, h2⟩; exact ⟨by omega, h2⟩
        · rintro ⟨h1, h2⟩; exact ⟨by omega, h2⟩
    · by_cases hs : started
      · have hnb : noBreakWithin (b :: List.take (8 - i) rest) started = false := by
          simp [noBreakWithin, hd, hs]
        rw [hnb]
        simp [getWktEpsgAux, hd, hs]
      · have hs2 : started = false := by
          cases started
          · rfl
          · exact absurd rfl hs
        subst hs2
        have hnb : noBreakWithin (b :: List.take (8 - i) rest) false =
            noBreakWithin (List.take (8 - i) rest) false := by
          simp [noBreakWithin, hd]
        rw [hnb]
        by_cases h7 : 7 < i
        · have h8 : 8 - i = 0 := by omega
          rw [h8]
          simp only [getWktEpsgAux, hd, Bool.false_eq_true, if_false, h7, if_true,
            List.take_zero, noBreakWithin, List.length_cons]
          constructor
          · intro _; exact ⟨by omega, trivial⟩
          · intro _; trivial
        · simp only [getWktEpsgAux, hd, Bool.false_eq_true, if_false, h7]
          rw [show (8 : Nat) - i = 9 - (i + 1) by omega, ih _ _ _ _ (by omega)]
          simp only [List.length_cons]
          constructor
          · rintro ⟨h1, h2⟩; exact ⟨by omega, h2⟩
          · rintro ⟨h1, h2⟩; exact ⟨by omega, h2⟩

/-- Leading non-digit bytes (with the run not yet started) are skipped,
only moving the index, as long as the bound is not reached. -/
lemma wktAux_skip (s : List Nat) : ∀ rest epsg power i,
    (∀ d ∈ s, isAsciiDigit d = false) → i + s.length ≤ 8 →
    getWktEpsgAux (s ++ rest) epsg power false i =
      getWktEpsgAux rest epsg power false (i + s.length) := by
  induction s with
  | nil => intro rest epsg power i _ _; simp
  | cons b s2 ih =>
    intro rest epsg power i hnd hb
    have hd : isAsciiDigit b = false := hnd b (List.mem_cons_self b s2)
    have h7 : ¬ 7 < i := by simp only [List.length_cons] at hb; omega
    rw [List.cons_append]
    simp only [getWktEpsgAux, hd, Bool.false_eq_true, if_false, h7]
    rw [ih rest epsg power (i + 1) (fun d hdm => hnd d (List.mem_cons_of_mem b hdm))
      (by simp only [List.length_cons] at hb ⊢; omega)]
    congr 1
    simp only [List.length_cons]
    omega

/-- Modular-arithmetic step of the accumulation: one wrapped `u16`
accumulation step followed by the rest of the run equals the whole run
accumulated at once, modulo `65536`. -/
lemma wkt_mod_step (a b c p : Nat) :
    ((a + 10 ^ p % 65536 * b) % 65536 + c * 10 ^ (p + 1)) % 65536 =
      (a + (b + 10 * c) * 10 ^ p) % 65536 := by
  have h1 : (a + 10 ^ p % 65536 * b) % 65536 + c * 10 ^ (p + 1) ≡
      a + 10 ^ p % 65536 * b + c * 10 ^ (p + 1) [MOD 65536] :=
    (Nat.mod_modEq _ 65536).add_right _
  have h2 : 10 ^ p % 65536 * b ≡ 10 ^ p * b [MOD 65536] :=
    (Nat.mod_modEq (10 ^ p) 65536).mul_right b
  have h3 : a + 10 ^ p % 65536 * b + c * 10 ^ (p + 1) ≡
      a + 10 ^ p * b + c * 10 ^ (p + 1) [MOD 65536] :=
    ((h2.add_left a).add_right _)
  have h4 := h1.trans h3
  have h5 : a + 10 ^ p * b + c * 10 ^ (p + 1) = a + (b + 10 * c) * 10 ^ p := by
    ring
  rw [h5] at h4
  exact h4

/-- A nonempty run of digit bytes within the bound accumulates its
least-significant-first value, wrapped at `65536`, and starts the run. -/
lemma wktAux_digits (ds : List Nat) : ∀ rest epsg power started i,
    (∀ d ∈ ds, isAsciiDigit d = true) → ds ≠ [] → i + ds.length ≤ 8 →
    getWktEpsgAux (ds ++ rest) epsg power started i =
      getWktEpsgAux rest ((epsg + revVal ds * 10 ^ power) % 65536)
        (power + ds.length) true (i + ds.length) := by
  induction ds with
  | nil => intro _ _ _ _ _ _ hne _; exact absurd rfl hne
  | cons d ds2 ih =>
    intro rest epsg power started i hdig _ hb
    have hd : isAsciiDigit d = true := hdig d (List.mem_cons_self d ds2)
    have h7 : ¬ 7 < i := by simp only [List.length_cons] at hb; omega
    rw [List.cons_append]
    simp only [getWktEpsgAux, hd, if_true, h7, if_false]
    by_cases hds2 : ds2 = []
    · subst hds2
      have hacc : (epsg + 10 ^ power % 65536 * (d - 48)) % 65536 =
          (epsg + revVal [d] * 10 ^ power) % 65536 := by
        have h := wkt_mod_step epsg (d - 48) 0 power
        simpa [revVal] using h
      simp only [List.nil_append, List.length_cons, List.length_nil, hacc]
    · rw [ih rest _ (power + 1) true (i + 1)
        (fun x hx => hdig x (List.mem_cons_of_mem d hx)) hds2
        (by simp only [List.length_cons] at hb ⊢; omega)]
      have hacc : ((epsg + 10 ^ power % 65536 * (d - 48)) % 65536 +
          revVal ds2 * 10 ^ (power + 1)) % 65536 =
          (epsg + revVal (d :: ds2) * 10 ^ power) % 65536 := by
        have h := wkt_mod_step epsg (d - 48) (revVal ds2) power
        simpa [revVal] using h
      rw [hacc]
      have h1 : power + 1 + ds2.length = power + (d :: ds2).length := by
        simp only [List.length_cons]; omega
      have h2 : i + 1 + ds2.length = i + (d :: ds2).length := by
        simp only [List.length_cons]; omega
      rw [h1, h2]

/-- `revVal` of a sequence with one more significant digit appended. -/
lemma revVal_append (xs : List Nat) (d : Nat) :
    revVal (xs ++ [d]) = revVal xs + (d - 48) * 10 ^ xs.length := by
  induction xs with
  | nil => simp [revVal]
  | cons x xs2 ih =>
    rw [List.cons_append]
    simp only [revVal, List.length_cons]
    rw [ih]
    ring

/-- The forward decimal fold of a run equals the least-significant-first
value of its reverse. -/
lemma digitRunValue_rev (run : List Nat) : revVal run.reverse = digitRunValue run := by
  suffices h : ∀ a, run.foldl (fun a d => 10 * a + (d - 48)) a =
      a * 10 ^ run.length + revVal run.reverse by
    have := h 0
    simp only [Nat.zero_mul, Nat.zero_add] at this
    simp [digitRunValue, this]
  induction run with
  | nil => intro a; simp [revVal]
  | cons d run2 ih =>
    intro a
    simp only [List.foldl_cons, ih, List.reverse_cons, revVal_append,
      List.length_reverse, List.length_cons]
    ring

/-! ### Claim theorems: the WKT path -/

/-- Claim C5 (amended): for every WKT payload whose trailing bytes, read
in reverse, consist of zero or more non-digit bytes, then at least one
ASCII digit, then a non-digit byte reached at reversed index at most 7,
`get_wkt_epsg` returns `Ok (v, None)` where `v` is the decimal value of
the trailing digit run reduced modulo `2 ^ 16` (the decimal value itself
whenever it is below `65536`); the vertical component is always `None`
on the WKT path. -/
theorem wkt_trailing_digit_run :
    (∀ pre : List Nat, ∀ b : Nat, ∀ run trail : List Nat,
      (∀ d ∈ run, isAsciiDigit d = true) → run ≠ [] →
      isAsciiDigit b = false → (∀ d ∈ trail, isAsciiDigit d = false) →
      trail.length + run.length ≤ 7 →
      get_wkt_epsg (pre ++ b :: (run ++ trail)) =
        .ok (digitRunValue run % 65536, none)) ∧
    (∀ bytes : List Nat, ∀ v : Nat, ∀ o : Option Nat,
      get_wkt_epsg bytes = .ok (v, o) → o = none) := by
  constructor
  · intro pre b run trail hrun hne hb htrail hlen
    have hrev : (pre ++ b :: (run ++ trail)).reverse =
        trail.reverse ++ (run.reverse ++ (b :: pre.reverse)) := by
      simp [List.reverse_append]
    rw [get_wkt_epsg, hrev]
    rw [wktAux_skip trail.reverse _ 0 0 0
      (fun d hd => htrail d (List.mem_reverse.mp hd))
      (by simp only [List.length_reverse, Nat.zero_add]; omega)]
    rw [wktAux_digits run.reverse _ 0 0 false (0 + trail.reverse.length)
      (fun d hd => hrun d (List.mem_reverse.mp hd))
      (by simpa using hne)
      (by simp only [List.length_reverse, Nat.zero_add]; omega)]
    have hbstep : ∀ acc power i, getWktEpsgAux (b :: pre.reverse) acc power true i =
        .ok (acc, none) := by
      intro acc power i
      simp [getWktEpsgAux, hb]
    rw [hbstep]
    rw [digitRunValue_rev run]
    simp
  · intro bytes v o hok
    rcases wktAux_cases bytes.reverse 0 0 false 0 with ⟨w, hw⟩ | herr
    · rw [get_wkt_epsg] at hok
      rw [hok] at hw
      cases hw
      rfl
    · rw [get_wkt_epsg] at hok
      rw [hok] at herr
      cases herr

/-- Witness for C5: the payload `AUTHORITY["EPSG","4326"]]` decodes to
`(4326, None)`. -/
theorem wkt_trailing_digit_run_witness :
    get_wkt_epsg ([65, 85, 84, 72, 79, 82, 73, 84, 89, 91, 34, 69, 80, 83, 71, 34, 44] ++
        34 :: ([52, 51, 50, 54] ++ [34, 93, 93])) = .ok (4326, none) :=
  (wkt_trailing_digit_run.1 [65, 85, 84, 72, 79, 82, 73, 84, 89, 91, 34, 69, 80, 83, 71, 34, 44]
      34 [52, 51, 50, 54] [34, 93, 93]
      (by decide) (by decide) (by decide) (by decide) (by decide)).trans (by decide)

/-- Counterexample for C5 as frozen: the payload `A99999` has a trailing
digit run of decimal value `99999` with the terminating non-digit at
reversed index `5 ≤ 7`, yet `get_wkt_epsg` returns the wrapped value
`34463 = 99999 % 65536`, not `99999`. -/
theorem wkt_trailing_digit_run_cex :
    get_wkt_epsg [65, 57, 57, 57, 57, 57] = .ok (34463, none) ∧
    digitRunValue [57, 57, 57, 57, 57] = 99999 ∧
    get_wkt_epsg [65, 57, 57, 57, 57, 57] ≠ .ok (99999, none) := by decide

/-- Claim C6: `get_wkt_epsg` fails (necessarily with `UnreadableWktCrs`)
exactly when at least 9 trailing bytes exist and the scan does not leave
the loop via the non-digit-after-digits rule within the first 9 reversed
bytes — eagerly, even if a digit run is still in progress — and a
payload of at most 8 bytes never fails: the loop runs off the end and
returns whatever was accumulated. -/
theorem wkt_bound_characterisation (bytes : List Nat) :
    (get_wkt_epsg bytes = .error .unreadableWktCrs ↔
      9 ≤ bytes.length ∧ noBreakWithin (bytes.reverse.take 9) false = true) ∧
    (bytes.length ≤ 8 → ∃ v : Nat, get_wkt_epsg bytes = .ok (v, none)) := by
  have hiff := wktAux_error_iff bytes.reverse 0 0 false 0 (by omega)
  simp only [Nat.zero_add, List.length_reverse] at hiff
  constructor
  · exact hiff
  · intro hlen
    rcases wktAux_cases bytes.reverse 0 0 false 0 with ⟨v, hv⟩ | herr
    · exact ⟨v, hv⟩
    · have h9 := (hiff.mp herr).1
      omega

/-- Witness for C6: a payload of nine ASCII `9`s keeps the digit run
going at reversed index 8, so the scan fails eagerly with
`UnreadableWktCrs`. -/
theorem wkt_bound_characterisation_witness :
    get_wkt_epsg [57, 57, 57, 57, 57, 57, 57, 57, 57] = .error .unreadableWktCrs :=
  (wkt_bound_characterisation [57, 57, 57, 57, 57, 57, 57, 57, 57]).1.mpr (by decide)

/-- Claim C10 (amended): `get_wkt_epsg` is total — every payload yields
`Ok` (with no vertical code) or the error `UnreadableWktCrs` — but the
16-bit accumulation `10_u16.pow(power) * digit_value` can exceed the
16-bit range on payloads accepted within the 8-trailing-byte bound; the
model makes the wrap explicit (`% 65536`), while under Rust's checked
(debug) arithmetic such payloads abort. -/
theorem wkt_total_but_accumulation_wraps :
    (∀ bytes : List Nat,
      (∃ v : Nat, get_wkt_epsg bytes = .ok (v, none)) ∨
        get_wkt_epsg bytes = .error .unreadableWktCrs) ∧
    (∃ bytes : List Nat, ∃ v : Nat,
      get_wkt_epsg bytes = .ok (v, none) ∧ wktAccumOverflows bytes = true) := by
  constructor
  · intro bytes
    exact wktAux_cases bytes.reverse 0 0 false 0
  · exact ⟨[66, 57, 57, 57, 57, 57], 34463, by decide, by decide⟩

/-- Counterexample for C10 as frozen: the payload `B99999` ends in five
`9` digits, is accepted (the scan returns `Ok`), and its accumulation
exceeds the 16-bit range (`10 ^ 4 * 9 = 90000 > 65535`), so the claimed
in-range invariant is false. -/
theorem wkt_accumulation_overflow_cex :
    wktAccumOverflows [66, 57, 57, 57, 57, 57] = true ∧
    get_wkt_epsg [66, 57, 57, 57, 57, 57] = .ok (34463, none) := by decide

/-! ### Claim theorems: orchestration (`parse_las_crs`) -/

/-- Claim C1: whenever the VLR selection yields both a WKT payload
(slot 0, record id 2112) and a GeoTIFF directory payload (slot 1,
record id 34735), `parse_las_crs` returns exactly the WKT decode of the
slot-0 payload, and the GeoTIFF slots are never inspected: any VLR list
selecting the same slot-0 payload — whatever its slots 1 to 3 hold —
produces the same result. -/
theorem parse_prefers_wkt (flag : Bool) (vlrs : List Vlr) (w g : List Nat)
    (h0 : (selectVlrs vlrs).s0 = some w) (h1 : (selectVlrs vlrs).s1 = some g) :
    parse_las_crs flag vlrs = get_wkt_epsg w ∧
    (∀ vlrs2 : List Vlr, (selectVlrs vlrs2).s0 = some w →
      parse_las_crs flag vlrs2 = parse_las_crs flag vlrs) := by
  constructor
  · rw [parse_las_crs, parse_las_crs_logged]
    simp only [h0]
  · intro vlrs2 h2
    rw [parse_las_crs, parse_las_crs, parse_las_crs_logged, parse_las_crs_logged]
    simp only [h0, h2]

/-- Witness for C1: a list holding both a WKT VLR (payload `4326`) and a
GeoTIFF directory VLR; the result is the WKT decode. -/
theorem parse_prefers_wkt_witness :
    parse_las_crs true
      [⟨"LASF_Projection".toList, 2112, [52, 51, 50, 54]⟩,
       ⟨"LASF_Projection".toList, 34735, [9, 9, 9]⟩] = get_wkt_epsg [52, 51, 50, 54] :=
  (parse_prefers_wkt true
      [⟨"LASF_Projection".toList, 2112, [52, 51, 50, 54]⟩,
       ⟨"LASF_Projection".toList, 34735, [9, 9, 9]⟩]
      [52, 51, 50, 54] [9, 9, 9] (by decide) (by decide)).1

/-- Claim C9: two calls to `parse_las_crs` on the same VLR list that
differ only in the header's declares-WKT-CRS flag return identical
outcomes; the flag only influences the logging side channel. -/
theorem parse_flag_noninterference (vlrs : List Vlr) (f1 f2 : Bool) :
    parse_las_crs f1 vlrs = parse_las_crs f2 vlrs := by
  rw [parse_las_crs, parse_las_crs, parse_las_crs_logged, parse_las_crs_logged]
  cases h0 : (selectVlrs vlrs).s0 with
  | some w => simp
  | none =>
    cases h1 : (selectVlrs vlrs).s1 with
    | some g => simp [h0]
    | none => simp [h0]

/-! ### Lemmas about the cursor reads and the GeoTIFF decoder -/

/-- `readU16` succeeds whenever two bytes remain. -/
lemma readU16_of_le (l : List Nat) (p : Nat) (h : p + 2 ≤ l.length) :
    readU16 ⟨l, p⟩ = .ok (l.getD p 0 + 256 * l.getD (p + 1) 0, ⟨l, p + 2⟩) := by
  simp [readU16, h]

/-- Forward computation of `readU16` when the bytes at the cursor are
known as a cons pattern. -/
lemma readU16_drop (c : ByteCursor) (b0 b1 : Nat) (rest : List Nat)
    (h : c.data.drop c.pos = b0 :: b1 :: rest) :
    readU16 c = .ok (b0 + 256 * b1, ⟨c.data, c.pos + 2⟩) ∧
      c.data.drop (c.pos + 2) = rest := by
  have hlen : (c.data.drop c.pos).length = rest.length + 2 := by rw [h]; simp
  rw [List.length_drop] at hlen
  have hle : c.pos + 2 ≤ c.data.length := by omega
  have h0 : c.data.getD c.pos 0 = b0 := by
    rw [List.getD_eq_getElem?_getD]
    have hx : (c.data.drop c.pos)[0]? = c.data[c.pos + 0]? := List.getElem?_drop c.data c.pos 0
    rw [h] at hx
    rw [show c.pos + 0 = c.pos by omega] at hx
    rw [← hx]
    rfl
  have h1 : c.data.getD (c.pos + 1) 0 = b1 := by
    rw [List.getD_eq_getElem?_getD]
    have hx : (c.data.drop c.pos)[1]? = c.data[c.pos + 1]? := List.getElem?_drop c.data c.pos 1
    rw [h] at hx
    rw [← hx]
    simp
  have h2 : c.data.drop (c.pos + 2) = rest := by
    have hx := List.drop_drop 2 c.pos c.data
    rw [← hx, h]
    rfl
  constructor
  · have hr := readU16_of_le c.data c.pos hle
    rw [h0, h1] at hr
    exact hr
  · exact h2

/-- Inversion of a successful `readU16`: two bytes were available and
the cursor advanced by two. -/
lemma readU16_ok (c : ByteCursor) (v : Nat) (c2 : ByteCursor)
    (h : readU16 c = .ok (v, c2)) :
    c.pos + 2 ≤ c.data.length ∧ c2.data = c.data ∧ c2.pos = c.pos + 2 := by
  rw [readU16] at h
  by_cases hle : c.pos + 2 ≤ c.data.length
  · rw [if_pos hle] at h
    cases h
    exact ⟨hle, rfl, rfl⟩
  · rw [if_neg hle] at h
    cases h

/-- Round trip of the two-byte little-endian encoding of a `u16`. -/
lemma u16le_value (n : Nat) (h : n < 65536) :
    n % 256 + 256 * (n / 256 % 256) = n := by
  have h2 : n / 256 < 256 := by omega
  rw [Nat.mod_eq_of_lt h2]
  exact Nat.mod_add_div n 256


/-- Inversion of a successful `GeoTiffKeyEntry::read_from`: the main
cursor had eight bytes available and advanced by exactly eight,
whatever the location tag dispatched to. -/
lemma entry_read_ok (c : ByteCursor) (dbl ascii : Option (List Nat))
    (e : GeoTiffKeyEntry) (c2 : ByteCursor)
    (h : GeoTiffKeyEntry.read_from c dbl ascii = .ok (e, c2)) :
    c.pos + 8 ≤ c.data.length ∧ c2.data = c.data ∧ c2.pos = c.pos + 8 := by
  unfold GeoTiffKeyEntry.read_from at h
  split at h
  next => cases h
  next v1 cA h1 =>
    split at h
    next => cases h
    next v2 cB h2 =>
      split at h
      next => cases h
      next v3 cC h3 =>
        split at h
        next => cases h
        next v4 cD h4 =>
          have H1 := readU16_ok c v1 cA h1
          have H2 := readU16_ok cA v2 cB h2
          have H3 := readU16_ok cB v3 cC h3
          have H4 := readU16_ok cC v4 cD h4
          have hD : cD.data = c.data ∧ cD.pos = c.pos + 8 := by
            obtain ⟨-, a2, a3⟩ := H1
            obtain ⟨-, b2, b3⟩ := H2
            obtain ⟨-, d2, d3⟩ := H3
            obtain ⟨-, e2, e3⟩ := H4
            rw [e2, d2, b2, a2, e3, d3, b3, a3]
            exact ⟨rfl, by omega⟩
          have hbound : c.pos + 8 ≤ c.data.length := by
            obtain ⟨-, a2, a3⟩ := H1
            obtain ⟨-, b2, b3⟩ := H2
            obtain ⟨-, d2, d3⟩ := H3
            obtain ⟨e1, -, -⟩ := H4
            rw [d2, b2, a2, d3, b3, a3] at e1
            omega
          refine ⟨hbound, ?_⟩
          split at h
          · cases h; exact hD
          · split at h
            · split at h
              next => cases h
              next buf =>
                split at h
                next => cases h
                next ds cE h5 => cases h; exact hD
            · split at h
              · split at h
                next => cases h
                next buf =>
                  split at h
                  next => cases h
                  next bs cE h5 => cases h; exact hD
              · cases h

/-- Inversion of a successful `GeoTiffCRS::read_from` loop: reading `n`
entries needs `8 * n` bytes from the main cursor (unless `n = 0`, when
nothing is read). -/
lemma readEntries_ok (dbl ascii : Option (List Nat)) : ∀ (n : Nat) (c : ByteCursor)
    (es : List GeoTiffKeyEntry) (c2 : ByteCursor),
    readEntries dbl ascii n c = .ok (es, c2) →
    n = 0 ∨ c.pos + 8 * n ≤ c.data.length := by
  intro n
  induction n with
  | zero => intro c es c2 _; exact Or.inl rfl
  | succ m ih =>
    intro c es c2 h
    unfold readEntries at h
    split at h
    next => cases h
    next e1 cB h1 =>
      split at h
      next => cases h
      next es2 cC h2 =>
        have HB := entry_read_ok c dbl ascii e1 cB h1
        rcases ih cB es2 cC h2 with hz | hle
        · subst hz
          right
          omega
        · right
          rw [HB.2.1, HB.2.2] at hle
          omega

/-- A doubles read that would run past the end of its buffer fails with
the I/O-class error. -/
lemma readDoublesLoop_short : ∀ (n : Nat) (p : Nat) (buf : List Nat),
    1 ≤ n → buf.length < p + 8 * n →
    readDoublesLoop n ⟨buf, p⟩ = .error .ioError := by
  intro n
  induction n with
  | zero => intro p buf h1 _; omega
  | succ m ih =>
    intro p buf _ hshort
    by_cases hle : p + 8 ≤ buf.length
    · have hm : 1 ≤ m := by omega
      unfold readDoublesLoop
      rw [readF64, if_pos hle]
      dsimp only
      rw [ih (p + 8) buf hm (by omega)]
    · unfold readDoublesLoop
      rw [readF64, if_neg hle]

/-- An ASCII read that would run past the end of its buffer fails with
the I/O-class error. -/
lemma readAsciiLoop_short : ∀ (n : Nat) (p : Nat) (buf : List Nat),
    1 ≤ n → buf.length < p + n →
    readAsciiLoop n ⟨buf, p⟩ = .error .ioError := by
  intro n
  induction n with
  | zero => intro p buf h1 _; omega
  | succ m ih =>
    intro p buf _ hshort
    by_cases hle : p + 1 ≤ buf.length
    · have hm : 1 ≤ m := by omega
      unfold readAsciiLoop
      rw [readU8, if_pos hle]
      dsimp only
      rw [ih (p + 1) buf hm (by omega)]
    · unfold readAsciiLoop
      rw [readU8, if_neg hle]

/-- Forward computation of the doubles loop when the buffer is long
enough: `n` consecutive 8-byte little-endian floats starting at byte
position `p`. -/
lemma readDoublesLoop_ok : ∀ (n : Nat) (p : Nat) (buf : List Nat),
    p + 8 * n ≤ buf.length →
    readDoublesLoop n ⟨buf, p⟩ =
      .ok ((List.range n).map (fun j => leValue ((buf.drop (p + 8 * j)).take 8)),
        ⟨buf, p + 8 * n⟩) := by
  intro n
  induction n with
  | zero => intro p buf _; simp [readDoublesLoop]
  | succ m ih =>
    intro p buf hle
    unfold readDoublesLoop
    rw [readF64, if_pos (show p + 8 ≤ buf.length by omega)]
    dsimp only
    rw [ih (p + 8) buf (by omega)]
    have hrange : (List.range (m + 1)).map
        (fun j => leValue ((buf.drop (p + 8 * j)).take 8)) =
        leValue ((buf.drop p).take 8) ::
          (List.range m).map (fun j => leValue ((buf.drop (p + 8 + 8 * j)).take 8)) := by
      rw [List.range_succ_eq_map, List.map_cons, List.map_map]
      simp only [Nat.mul_zero, Nat.add_zero]
      congr 1
      apply List.map_congr_left
      intro j hj
      simp only [Function.comp_apply, Nat.succ_eq_add_one]
      rw [show p + 8 * (j + 1) = p + 8 + 8 * j by ring]
    rw [hrange]
    rw [show p + 8 * (m + 1) = p + 8 + 8 * m by ring]

/-- The entry scan on a directory whose model-type entries are accepted
(`U16` value 1, 2 or 3) and whose `2048`/`3072`/`4096` entries are
numeric reduces to the two last-wins folds of the horizontal and
vertical codes. -/
lemma scanEntries_benign (es : List GeoTiffKeyEntry) : ∀ hz vt : Option Nat,
    (∀ e ∈ es, e.id = 1024 →
      e.data = .u16 1 ∨ e.data = .u16 2 ∨ e.data = .u16 3) →
    (∀ e ∈ es, e.id = 2048 ∨ e.id = 3072 ∨ e.id = 4096 →
      e.data.isNumeric = true) →
    scanEntries es (hz, vt) = .ok (lastHorizontalFrom es hz, lastVerticalFrom es vt) := by
  induction es with
  | nil =>
    intro hz vt _ _
    simp [scanEntries, lastHorizontalFrom, lastVerticalFrom]
  | cons e rest ih =>
    intro hz vt h1024 hnum
    have hrest1024 : ∀ x ∈ rest, x.id = 1024 →
        x.data = .u16 1 ∨ x.data = .u16 2 ∨ x.data = .u16 3 :=
      fun x hx => h1024 x (List.mem_cons_of_mem e hx)
    have hrestnum : ∀ x ∈ rest, x.id = 2048 ∨ x.id = 3072 ∨ x.id = 4096 →
        x.data.isNumeric = true :=
      fun x hx => hnum x (List.mem_cons_of_mem e hx)
    obtain ⟨eid, edata⟩ := e
    rw [lastHorizontalFrom, lastVerticalFrom, List.foldl_cons, List.foldl_cons]
    by_cases hid1 : eid = 1024
    · subst hid1
      rcases h1024 _ (List.mem_cons_self _ rest) rfl with hd | hd | hd <;>
        (dsimp only at hd; subst hd; simp only [scanEntries]; norm_num;
         exact ih hz vt hrest1024 hrestnum)
    · by_cases hid3 : eid = 3072
      · subst hid3
        have hn := hnum _ (List.mem_cons_self _ rest) (Or.inr (Or.inl rfl))
        cases edata with
        | u16 v =>
          simp only [scanEntries]
          norm_num
          exact ih (some v) vt hrest1024 hrestnum
        | string s => simp [GeoTiffData.isNumeric] at hn
        | doubles ds => simp [GeoTiffData.isNumeric] at hn
      · by_cases hid2 : eid = 2048
        · subst hid2
          have hn := hnum _ (List.mem_cons_self _ rest) (Or.inl rfl)
          cases edata with
          | u16 v =>
            simp only [scanEntries]
            norm_num
            exact ih (some v) vt hrest1024 hrestnum
          | string s => simp [GeoTiffData.isNumeric] at hn
          | doubles ds => simp [GeoTiffData.isNumeric] at hn
        · by_cases hid4 : eid = 4096
          · subst hid4
            have hn := hnum _ (List.mem_cons_self _ rest) (Or.inr (Or.inr rfl))
            cases edata with
            | u16 v =>
              simp only [scanEntries]
              norm_num
              exact ih hz (some v) hrest1024 hrestnum
            | string s => simp [GeoTiffData.isNumeric] at hn
            | doubles ds => simp [GeoTiffData.isNumeric] at hn
          · simp only [scanEntries]
            simp only [hid1, hid3, hid2, hid4, if_false]
            exact ih hz vt hrest1024 hrestnum

/-- The whole entry interpretation on a benign directory: the result is
the last-wins horizontal code (failing with `UnreadableGeotiffCrs` when
none was stored) paired with the last-wins vertical code. -/
lemma interpretEntries_benign (es : List GeoTiffKeyEntry)
    (h1024 : ∀ e ∈ es, e.id = 1024 →
      e.data = .u16 1 ∨ e.data = .u16 2 ∨ e.data = .u16 3)
    (hnum : ∀ e ∈ es, e.id = 2048 ∨ e.id = 3072 ∨ e.id = 4096 →
      e.data.isNumeric = true) :
    interpretEntries es =
      match lastHorizontalCode es with
      | none => .error .unreadableGeotiffCrs
      | some hz => .ok (hz, lastVerticalCode es) := by
  rw [interpretEntries, lastHorizontalCode, lastVerticalCode]
  rw [scanEntries_benign es none none h1024 hnum]
  cases lastHorizontalFrom es none <;> rfl

/-! ### Claim theorems: the GeoTIFF path -/

/-- Claim C2: on a decoded GeoTIFF key directory whose model-type
entries are accepted and whose code entries are numeric, the resolver
returns `(horizontal, vertical)` where the horizontal code is the value
of whichever entry with id `2048` or `3072` appears last in directory
order and the vertical code is the value of the last entry with id
`4096` (`None` when absent); when no entry with id `2048` or `3072`
stored a horizontal code it fails with `UnreadableGeotiffCrs`. -/
theorem geotiff_last_code_wins (es : List GeoTiffKeyEntry)
    (h1024 : ∀ e ∈ es, e.id = 1024 →
      e.data = .u16 1 ∨ e.data = .u16 2 ∨ e.data = .u16 3)
    (hnum : ∀ e ∈ es, e.id = 2048 ∨ e.id = 3072 ∨ e.id = 4096 →
      e.data.isNumeric = true) :
    interpretEntries es =
      match lastHorizontalCode es with
      | none => .error .unreadableGeotiffCrs
      | some hz => .ok (hz, lastVerticalCode es) :=
  interpretEntries_benign es h1024 hnum

/-- Witness for C2: the directory of the claim —
`(1024, 2), (2048, 4326), (4096, 5773)` — resolves to
`(4326, Some 5773)`. -/
theorem geotiff_last_code_wins_witness :
    interpretEntries [⟨1024, .u16 2⟩, ⟨2048, .u16 4326⟩, ⟨4096, .u16 5773⟩] =
      .ok (4326, some 5773) :=
  (geotiff_last_code_wins [⟨1024, .u16 2⟩, ⟨2048, .u16 4326⟩, ⟨4096, .u16 5773⟩]
      (by decide) (by decide)).trans (by decide)

/-- Counterexample for C3 as frozen: a decoded directory with no entry
of id `1024` at all — header `(1,1,0,count=1)` followed by the single
entry `(id=2048, tag=0, count=1, value=4326)` — does not fail with
`UnreadableGeotiffCrs`: it resolves to `(4326, None)`. -/
theorem geotiff_missing_model_type_cex :
    get_geotiff_epsg [1, 0, 1, 0, 0, 0, 1, 0, 0, 8, 0, 0, 1, 0, 230, 16] none none =
      .ok (4326, none) ∧
    get_geotiff_epsg [1, 0, 1, 0, 0, 0, 1, 0, 0, 8, 0, 0, 1, 0, 230, 16] none none ≠
      .error .unreadableGeotiffCrs := by decide

/-- Claim C3 (amended): the model-type key is not enforced.  A decoded
directory containing no entry with id `1024` (its other significant
entries being numeric) is resolved exactly like any benign directory:
it succeeds with the last-stored horizontal (and optional vertical)
code, and fails with `UnreadableGeotiffCrs` only when no entry with id
`2048` or `3072` is present. -/
theorem geotiff_no_model_type_not_enforced (es : List GeoTiffKeyEntry)
    (hno : ∀ e ∈ es, e.id ≠ 1024)
    (hnum : ∀ e ∈ es, e.id = 2048 ∨ e.id = 3072 ∨ e.id = 4096 →
      e.data.isNumeric = true) :
    interpretEntries es =
      match lastHorizontalCode es with
      | none => .error .unreadableGeotiffCrs
      | some hz => .ok (hz, lastVerticalCode es) :=
  interpretEntries_benign es
    (fun e he hid => absurd hid (hno e he)) hnum

/-- Witness for C3 (amended): the one-entry directory
`(2048, 4326)` with no model-type key resolves to `(4326, None)`. -/
theorem geotiff_no_model_type_not_enforced_witness :
    interpretEntries [⟨2048, .u16 4326⟩] = .ok (4326, none) :=
  (geotiff_no_model_type_not_enforced [⟨2048, .u16 4326⟩]
      (by decide) (by decide)).trans (by decide)

/-- Claim C4: dispatch on the model-type entry (id `1024`): numeric `0`
fails with `UnreadableGeotiffCrs`; numeric `1`, `2`, `3` are accepted
with no further effect on the scan; numeric `32767` fails with
`UserDefinedCrs`; a `Text` or `Doubles` value fails with
`UnimplementedForGeoTiffAsciiAndStringData` carrying that
representation; any other numeric value is rejected the same way,
carrying the offending numeric representation. -/
theorem model_type_key_dispatch (rest : List GeoTiffKeyEntry)
    (out : Option Nat × Option Nat) (v : Nat) (s ds : List Nat) :
    (scanEntries (⟨1024, .u16 0⟩ :: rest) out = .error .unreadableGeotiffCrs) ∧
    ((v = 1 ∨ v = 2 ∨ v = 3) →
      scanEntries (⟨1024, .u16 v⟩ :: rest) out = scanEntries rest out) ∧
    (scanEntries (⟨1024, .u16 32767⟩ :: rest) out = .error .userDefinedCrs) ∧
    (scanEntries (⟨1024, .string s⟩ :: rest) out =
      .error (.unimplementedForGeoTiffAsciiAndStringData (.string s))) ∧
    (scanEntries (⟨1024, .doubles ds⟩ :: rest) out =
      .error (.unimplementedForGeoTiffAsciiAndStringData (.doubles ds))) ∧
    (v ≠ 0 → v ≠ 1 → v ≠ 2 → v ≠ 3 → v ≠ 32767 →
      scanEntries (⟨1024, .u16 v⟩ :: rest) out =
        .error (.unimplementedForGeoTiffAsciiAndStringData (.u16 v))) := by
  refine ⟨by simp [scanEntries], ?_, by simp [scanEntries], by simp [scanEntries],
    by simp [scanEntries], ?_⟩
  · rintro (hv | hv | hv) <;> subst hv <;> simp [scanEntries]
  · intro h0 h1 h2 h3 h5
    simp [scanEntries, h0, h1, h2, h3, h5]

/-- Witness for C4: an accepted model type (`2`) leaves the scan
unchanged, and the unsupported numeric model type `5` is rejected
carrying `U16 5`. -/
theorem model_type_key_dispatch_witness :
    scanEntries [⟨1024, .u16 2⟩] (none, none) = scanEntries [] (none, none) ∧
    scanEntries [⟨1024, .u16 5⟩] (none, none) =
      .error (.unimplementedForGeoTiffAsciiAndStringData (.u16 5)) :=
  ⟨(model_type_key_dispatch [] (none, none) 2 [] []).2.1 (Or.inr (Or.inl rfl)),
   (model_type_key_dispatch [] (none, none) 5 [] []).2.2.2.2.2
     (by decide) (by decide) (by decide) (by decide) (by decide)⟩

/-- Claim C7: resolving a key entry with location tag `34736` requires
the doubles auxiliary buffer — failing with `UnreadableGeotiffCrs` when
it is absent — and otherwise seeks to byte position `value_or_offset
* 8` (the offset is an index into 8-byte floats) and reads
`value_count` consecutive little-endian 64-bit floats from there,
yielding `Doubles` of that sequence. -/
theorem entry_doubles_indirection (id cnt off : Nat) (tail : List Nat)
    (ascii : Option (List Nat)) (hid : id < 65536) (hcnt : cnt < 65536)
    (hoff : off < 65536) :
    (GeoTiffKeyEntry.read_from
        ⟨u16le id ++ u16le 34736 ++ u16le cnt ++ u16le off ++ tail, 0⟩ none ascii =
      .error .unreadableGeotiffCrs) ∧
    (∀ buf : List Nat, off * 8 + 8 * cnt ≤ buf.length →
      GeoTiffKeyEntry.read_from
          ⟨u16le id ++ u16le 34736 ++ u16le cnt ++ u16le off ++ tail, 0⟩
          (some buf) ascii =
        .ok (⟨id, .doubles ((List.range cnt).map
            (fun j => leValue ((buf.drop (off * 8 + 8 * j)).take 8)))⟩,
          ⟨u16le id ++ u16le 34736 ++ u16le cnt ++ u16le off ++ tail, 8⟩)) := by
  have hL0 : (u16le id ++ u16le 34736 ++ u16le cnt ++ u16le off ++ tail).drop 0 =
      id % 256 :: id / 256 % 256 :: 34736 % 256 :: 34736 / 256 % 256 ::
        cnt % 256 :: cnt / 256 % 256 :: off % 256 :: off / 256 % 256 :: tail := rfl
  obtain ⟨e1r, e1d⟩ := readU16_drop ⟨u16le id ++ u16le 34736 ++ u16le cnt ++ u16le off ++ tail, 0⟩
    (id % 256) (id / 256 % 256) _ hL0
  obtain ⟨e2r, e2d⟩ := readU16_drop ⟨u16le id ++ u16le 34736 ++ u16le cnt ++ u16le off ++ tail, 0 + 2⟩
    (34736 % 256) (34736 / 256 % 256) _ e1d
  obtain ⟨e3r, e3d⟩ := readU16_drop ⟨u16le id ++ u16le 34736 ++ u16le cnt ++ u16le off ++ tail, 0 + 2 + 2⟩
    (cnt % 256) (cnt / 256 % 256) _ e2d
  obtain ⟨e4r, e4d⟩ := readU16_drop ⟨u16le id ++ u16le 34736 ++ u16le cnt ++ u16le off ++ tail, 0 + 2 + 2 + 2⟩
    (off % 256) (off / 256 % 256) _ e3d
  rw [u16le_value id hid] at e1r
  rw [u16le_value 34736 (by norm_num)] at e2r
  rw [u16le_value cnt hcnt] at e3r
  rw [u16le_value off hoff] at e4r
  constructor
  · rw [GeoTiffKeyEntry.read_from, e1r]
    try dsimp only
    rw [e2r]
    try dsimp only
    rw [e3r]
    try dsimp only
    rw [e4r]
    try dsimp only
    rw [if_neg (by norm_num), if_pos rfl]
  · intro buf hbuf
    rw [GeoTiffKeyEntry.read_from, e1r]
    try dsimp only
    rw [e2r]
    try dsimp only
    rw [e3r]
    try dsimp only
    rw [e4r]
    try dsimp only
    rw [if_neg (by norm_num), if_pos rfl]
    try dsimp only
    rw [readDoublesLoop_ok cnt (off * 8) buf (by omega)]

/-- Witness for C7: the entry `(id=1, tag=34736, count=1, offset=0)`
against the auxiliary buffer holding the little-endian bytes
`[0,0,0,0,0,0,41,64]` — the IEEE-754 pattern of `12.5`, whose 64-bit
value is `4623226492472524800 = 0x4029000000000000` — resolves without
error to `Doubles` of that one float. -/
theorem entry_doubles_indirection_witness :
    GeoTiffKeyEntry.read_from
        ⟨u16le 1 ++ u16le 34736 ++ u16le 1 ++ u16le 0 ++ [], 0⟩
        (some [0, 0, 0, 0, 0, 0, 41, 64]) none =
      .ok (⟨1, .doubles [4623226492472524800]⟩,
        ⟨u16le 1 ++ u16le 34736 ++ u16le 1 ++ u16le 0 ++ [], 8⟩) :=
  ((entry_doubles_indirection 1 1 0 [] none (by decide) (by decide) (by decide)).2
      [0, 0, 0, 0, 0, 0, 41, 64] (by decide)).trans (by decide)

/-- Claim C8 (amended): truncated buffers never yield a partial result.
A directory payload too short for its header fails with the I/O-class
error; a directory payload shorter than `8 + N * 8` bytes (`N` the
declared entry count) always fails — with the I/O-class error unless an
entry-level error (undefined location tag, missing auxiliary buffer, a
failing auxiliary read) preempts the short read — and every doubles or
ASCII auxiliary-buffer read that would run past the end of its buffer
fails with the I/O-class error, never a silent zero-fill. -/
theorem truncated_reads_fail :
    (∀ (main : List Nat) (dbl ascii : Option (List Nat)),
      main.length < 8 → get_geotiff_epsg main dbl ascii = .error .ioError) ∧
    (∀ (main : List Nat) (dbl ascii : Option (List Nat)),
      8 ≤ main.length → main.length < 8 + 8 * declaredEntryCount main →
      ∃ e, get_geotiff_epsg main dbl ascii = .error e) ∧
    (∀ (n p : Nat) (buf : List Nat), 1 ≤ n → buf.length < p + 8 * n →
      readDoublesLoop n ⟨buf, p⟩ = .error .ioError) ∧
    (∀ (n p : Nat) (buf : List Nat), 1 ≤ n → buf.length < p + n →
      readAsciiLoop n ⟨buf, p⟩ = .error .ioError) := by
  refine ⟨?_, ?_, readDoublesLoop_short, readAsciiLoop_short⟩
  · intro main dbl ascii hlen
    rw [get_geotiff_epsg]
    by_cases h0 : 0 + 2 ≤ main.length
    · rw [readU16_of_le main 0 h0]
      try dsimp only
      by_cases h1 : 0 + 2 + 2 ≤ main.length
      · rw [readU16_of_le main (0 + 2) h1]
        try dsimp only
        by_cases h2 : 0 + 2 + 2 + 2 ≤ main.length
        · rw [readU16_of_le main (0 + 2 + 2) h2]
          try dsimp only
          rw [readU16, if_neg (show ¬ (0 + 2 + 2 + 2 + 2 ≤ main.length) by omega)]
        · rw [readU16, if_neg h2]
      · rw [readU16, if_neg h1]
    · rw [readU16, if_neg h0]
  · intro main dbl ascii h8 hshort
    rw [get_geotiff_epsg]
    rw [readU16_of_le main 0 (by omega)]
    try dsimp only
    rw [readU16_of_le main (0 + 2) (by omega)]
    try dsimp only
    rw [readU16_of_le main (0 + 2 + 2) (by omega)]
    try dsimp only
    rw [readU16_of_le main (0 + 2 + 2 + 2) (by omega)]
    try dsimp only
    cases hE : readEntries dbl ascii
        (main.getD (0 + 2 + 2 + 2) 0 + 256 * main.getD (0 + 2 + 2 + 2 + 1) 0)
        ⟨main, 0 + 2 + 2 + 2 + 2⟩ with
    | error e => exact ⟨e, rfl⟩
    | ok p =>
      obtain ⟨es, c2⟩ := p
      exfalso
      have hN : main.getD (0 + 2 + 2 + 2) 0 + 256 * main.getD (0 + 2 + 2 + 2 + 1) 0 =
          declaredEntryCount main := rfl
      rcases readEntries_ok dbl ascii _ _ _ _ hE with hz | hle
      · rw [hN] at hz
        omega
      · rw [hN] at hle
        dsimp only at hle
        omega

/-- Witness for C8: a directory declaring 2 entries in an 8-byte payload
fails; a doubles read of one float from a 2-byte buffer and an ASCII
read of two bytes from a 1-byte buffer fail with the I/O-class error; a
3-byte payload cannot even supply the header. -/
theorem truncated_reads_fail_witness :
    (∃ e, get_geotiff_epsg [1, 0, 1, 0, 0, 0, 2, 0] none none = .error e) ∧
    readDoublesLoop 1 ⟨[0, 0], 0⟩ = .error .ioError ∧
    readAsciiLoop 2 ⟨[65], 0⟩ = .error .ioError ∧
    get_geotiff_epsg [1, 0, 1] none none = .error .ioError :=
  ⟨truncated_reads_fail.2.1 [1, 0, 1, 0, 0, 0, 2, 0] none none (by decide) (by decide),
   truncated_reads_fail.2.2.1 1 0 [0, 0] (by decide) (by decide),
   truncated_reads_fail.2.2.2 2 0 [65] (by decide) (by decide),
   truncated_reads_fail.1 [1, 0, 1] none none (by decide)⟩

/-- Counterexample for C8 as frozen: a directory payload of 16 bytes
declaring 2 entries (so shorter than `8 + 2 * 8 = 24` bytes) whose
first entry carries the undefined location tag `99` fails with
`UndefinedDataForGeoTiffKey 0`, not with the I/O-class error. -/
theorem truncated_reads_fail_cex :
    8 ≤ ([1, 0, 1, 0, 0, 0, 2, 0, 0, 0, 99, 0, 0, 0, 0, 0] : List Nat).length ∧
    ([1, 0, 1, 0, 0, 0, 2, 0, 0, 0, 99, 0, 0, 0, 0, 0] : List Nat).length <
      8 + 8 * declaredEntryCount [1, 0, 1, 0, 0, 0, 2, 0, 0, 0, 99, 0, 0, 0, 0, 0] ∧
    get_geotiff_epsg [1, 0, 1, 0, 0, 0, 2, 0, 0, 0, 99, 0, 0, 0, 0, 0] none none =
      .error (.undefinedDataForGeoTiffKey 0) ∧
    get_geotiff_epsg [1, 0, 1, 0, 0, 0, 2, 0, 0, 0, 99, 0, 0, 0, 0, 0] none none ≠
      .error .ioError := by decide
